/-
  Verification of the Gate Attendance State Engine of the login-track
  repository, shallowly embedded in Lean 4.

  The server route handlers live in src/navigation/RootStackNavigator.tsx
  (the Express routes registerRoutes), the gate-entry client in
  src/screens/GateEntryScreen.tsx, the bulk gate-out client in
  src/screens/GateOutScreen.tsx and the reports client in
  src/screens/ReportsScreen.tsx.

  Modelling conventions:
  - Wall-clock timestamps are rationals counting milliseconds, so the
    division by 3600000 that the code performs on millisecond
    differences is exact (the code uses IEEE doubles; all claims are
    about exact threshold comparisons, which the rational model makes
    faithful at the boundaries).
  - Calendar dates are natural numbers counting days since 1970-01-01;
    the ISO date strings the code compares lexicographically are in
    order-preserving bijection with these day numbers.
  - JavaScript strings are Lean strings; toUpperCase, toLowerCase, trim
    and includes are given explicit character-list implementations for
    the ASCII alphabet the badge codes use.
  - Database rows are records in lists; drizzle select().where().limit(1)
    becomes List.find?, update().where() becomes List.map guarded by the
    where-condition, insert becomes list append.
-/
import Mathlib

/-- Milliseconds per hour: the code divides millisecond differences by
1000 * 60 * 60 to obtain hours. -/
def msPerHour : ℚ := 3600000

/-- JavaScript toUpperCase, character by character (simple case mapping,
sufficient for the ASCII badge-code alphabet). -/
def jsToUpper (s : String) : String := String.mk (s.data.map Char.toUpper)

/-- JavaScript toLowerCase, character by character. -/
def jsToLower (s : String) : String := String.mk (s.data.map Char.toLower)

/-- JavaScript String.prototype.trim: drop whitespace from both ends. -/
def jsTrim (s : String) : String :=
  String.mk (((s.data.dropWhile Char.isWhitespace).reverse.dropWhile
    Char.isWhitespace).reverse)

/-- Does the needle occur at the head of the haystack? -/
def subAtHead : List Char → List Char → Bool
  | [], _ => true
  | _ :: _, [] => false
  | n :: ns, h :: hs => n == h && subAtHead ns hs

/-- Does the needle occur anywhere in the haystack? -/
def hasSubList (needle : List Char) : List Char → Bool
  | [] => needle.isEmpty
  | h :: hs => subAtHead needle (h :: hs) || hasSubList needle hs

/-- JavaScript String.prototype.includes. -/
def jsIncludes (hay needle : String) : Bool := hasSubList needle.data hay.data

/-- The seven weekday names produced by toLocaleDateString("en-US",
weekday long). -/
def weekNames : List String :=
  ["Sunday", "Monday", "Tuesday", "Wednesday", "Thursday", "Friday", "Saturday"]

/-- Weekday name of a day number (day 0 = 1970-01-01 was a Thursday). -/
def weekdayName (d : Nat) : String := weekNames.getD ((d + 4) % 7) ""

/-- Employee row (employees table): badge code slpid, display name,
department, active flag. -/
structure Employee where
  id : Nat
  slpid : String
  name : String
  department : String
  isActive : Bool
  deriving Repr, DecidableEq

/-- Roster row (rosters table): one per employee, shift label and weekly
rest day name. -/
structure Roster where
  employeeId : Nat
  shiftName : String
  weekOff : String
  deriving Repr, DecidableEq

/-- Attendance session row (attendance table). gateOutTime = none means
the session is open. -/
structure Attendance where
  id : Nat
  employeeId : Nat
  slpid : String
  shiftName : String
  department : String
  isWeekOffEntry : Bool
  isOvertime : Bool
  date : Nat
  gateInTime : ℚ
  gateOutTime : Option ℚ
  deriving Repr, DecidableEq

/-- The relational store the routes read and write. -/
structure DB where
  employees : List Employee
  rosters : List Roster
  attendance : List Attendance
  deriving Repr, DecidableEq

/-- Overtime test hoursWorked >= 9, inlined by the code at gate-out
(RootStackNavigator line 455), bulk gate-out (line 528), the gate-out
screen (GateOutScreen line 102) and the dashboard (DashboardScreen). -/
def isOvertime (h : ℚ) : Bool := 9 ≤ h

/-- Hours worked between gate-in and now as served by /api/gate/present:
the millisecond difference divided by 3600000, clamped below at 0. -/
def hoursWorked (gateIn now : ℚ) : ℚ := max 0 ((now - gateIn) / msPerHour)

/-- Outcome of POST /api/gate/entry, one constructor per response the
route can produce (ignoring the catch-all 500). -/
inductive GateResult where
  | validationError
  | notFound
  | inactive
  | duplicateScan (employeeName : String) (hoursElapsed : ℚ)
  | gateOut (employeeName : String) (hoursWorkedR : ℚ)
  | weekOffConfirm (employeeName : String)
  | gateIn (employeeName : String)
  deriving Repr, DecidableEq

/-- HTTP status the route attaches to each outcome. -/
def gateStatus : GateResult → Nat
  | .validationError => 400
  | .notFound => 404
  | .inactive => 403
  | .duplicateScan _ _ => 400
  | .gateOut _ _ => 200
  | .weekOffConfirm _ => 409
  | .gateIn _ => 200

/-- Message field of each response body. -/
def gateMessage : GateResult → String
  | .validationError => "SLPID is required"
  | .notFound => "Employee not found"
  | .inactive => "Employee is inactive"
  | .duplicateScan _ _ => "Card already scanned"
  | .gateOut _ _ => "Gate Out recorded"
  | .weekOffConfirm _ => "Employee is on week off. Confirmation required."
  | .gateIn _ => "Gate In recorded successfully"

/-- POST /api/gate/entry (RootStackNavigator lines 430 to 493).
now is the wall clock in milliseconds, today the current day number
(the code derives both from new Date()), freshId the id randomUUID
would mint for a new row. The attendance schema file (shared/schema)
is not under src; per the spec the gate-in timestamp of a freshly
inserted session defaults to now. -/
def scanGate (db : DB) (slpid : String) (allowWeekOff : Bool)
    (now : ℚ) (today : Nat) (freshId : Nat) : GateResult × DB :=
  if slpid = "" then (.validationError, db)
  else
    match db.employees.find? (fun e => e.slpid == jsToUpper slpid) with
    | none => (.notFound, db)
    | some emp =>
      if !emp.isActive then (.inactive, db)
      else
        match db.attendance.find?
            (fun a => a.employeeId == emp.id && a.gateOutTime.isNone) with
        | some activeEntry =>
          let hoursElapsed := (now - activeEntry.gateInTime) / msPerHour
          if hoursElapsed < 1 then
            (.duplicateScan emp.name hoursElapsed, db)
          else
            (.gateOut emp.name hoursElapsed,
             { db with attendance := db.attendance.map (fun a =>
                 if a.id == activeEntry.id then
                   { a with gateOutTime := some now,
                            isOvertime := isOvertime hoursElapsed }
                 else a) })
        | none =>
          let roster := db.rosters.find? (fun r => r.employeeId == emp.id)
          let isWeekOff := match roster with
            | some r => jsToLower r.weekOff == jsToLower (weekdayName today)
            | none => false
          if isWeekOff && !allowWeekOff then
            (.weekOffConfirm emp.name, db)
          else
            (.gateIn emp.name,
             { db with attendance := db.attendance ++
                 [{ id := freshId
                    employeeId := emp.id
                    slpid := emp.slpid
                    shiftName := match roster with
                      | some r => r.shiftName
                      | none => "General"
                    department := emp.department
                    isWeekOffEntry := isWeekOff && allowWeekOff
                    isOvertime := false
                    date := today
                    gateInTime := now
                    gateOutTime := none }] })

/-- Outcome of POST /api/gate/bulk-out. -/
inductive BulkResult where
  | validationError
  | ok (count : Nat)
  deriving Repr, DecidableEq

/-- The for-loop body of /api/gate/bulk-out: per identifier, look the
row up afresh in the current state; if it exists (openness is not
re-checked), set its gate-out time to now and its overtime flag from
its gate-in time, and count it. -/
def bulkCloseLoop (now : ℚ) (db : DB) : List Nat → DB × Nat
  | [] => (db, 0)
  | attId :: rest =>
    match db.attendance.find? (fun a => a.id == attId) with
    | none => bulkCloseLoop now db rest
    | some att =>
      let h := (now - att.gateInTime) / msPerHour
      let db2 := { db with attendance := db.attendance.map (fun a =>
        if a.id == attId then
          { a with gateOutTime := some now, isOvertime := isOvertime h }
        else a) }
      let r := bulkCloseLoop now db2 rest
      (r.1, r.2 + 1)

/-- POST /api/gate/bulk-out (RootStackNavigator lines 517 to 537). -/
def bulkGateOut (db : DB) (attendanceIds : List Nat) (now : ℚ) :
    BulkResult × DB :=
  if attendanceIds.isEmpty then (.validationError, db)
  else
    let r := bulkCloseLoop now db attendanceIds
    (.ok r.2, r.1)

/-- One row of the GET /api/reports response (display-only fields such
as gender, designation and date of joining are carried along by the
route but omitted here; id is a fresh randomUUID for absent rows). -/
structure ReportRow where
  slpid : String
  employeeName : String
  department : String
  shiftName : String
  date : Nat
  gateInTime : Option ℚ
  gateOutTime : Option ℚ
  totalHours : ℚ
  otHours : ℚ
  status : String
  deriving Repr, DecidableEq

/-- Outcome of GET /api/reports. -/
inductive ReportResult where
  | validationError
  | ok (rows : List ReportRow)
  deriving Repr, DecidableEq

/-- The present row the route pushes when a session matches the
employee and date. -/
def presentRow (emp : Employee) (att : Attendance) : ReportRow :=
  let totalHours := match att.gateOutTime with
    | some out => (out - att.gateInTime) / msPerHour
    | none => 0
  { slpid := att.slpid
    employeeName := emp.name
    department := att.department
    shiftName := att.shiftName
    date := att.date
    gateInTime := some att.gateInTime
    gateOutTime := att.gateOutTime
    totalHours := totalHours
    otHours := if 9 < totalHours then totalHours - 9 else 0
    status := "P" }

/-- The absent row the route pushes when no session matches and the
date is not the rest day. -/
def absentRow (emp : Employee) (roster : Option Roster) (date : Nat) :
    ReportRow :=
  { slpid := emp.slpid
    employeeName := emp.name
    department := emp.department
    shiftName := match roster with
      | some r => r.shiftName
      | none => "General"
    date := date
    gateInTime := none
    gateOutTime := none
    totalHours := 0
    otHours := 0
    status := "A" }

/-- Stable insertion of a row into a list sorted by descending date,
embedding the final sort by (b.date - a.date) of the route. -/
def insertByDateDesc (r : ReportRow) : List ReportRow → List ReportRow
  | [] => [r]
  | x :: xs => if x.date < r.date then r :: x :: xs
               else x :: insertByDateDesc r xs

/-- Stable sort by descending date (Array.prototype.sort is stable). -/
def sortByDateDesc : List ReportRow → List ReportRow
  | [] => []
  | x :: xs => insertByDateDesc x (sortByDateDesc xs)

/-- The per-date classification loop body of GET /api/reports. -/
def reportRowsFor (emp : Employee) (roster : Option Roster)
    (allAtt : List Attendance) (onlyAbsent : Bool) (date : Nat) :
    List ReportRow :=
  let dayOfWeek := weekdayName date
  let isWeekOff := match roster with
    | some r => jsToLower r.weekOff == jsToLower dayOfWeek
    | none => false
  let att := allAtt.find? (fun a => a.employeeId == emp.id && a.date == date)
  if onlyAbsent then
    match att, isWeekOff with
    | none, false => [absentRow emp roster date]
    | _, _ => []
  else
    match att with
    | some a => [presentRow emp a]
    | none => if isWeekOff then [] else [absentRow emp roster date]

/-- The per-employee loop body of GET /api/reports: skip the employee
when the department filter does not match, otherwise classify every
date of the range. -/
def reportRowsForEmployee (db : DB) (allAtt : List Attendance)
    (dates : List Nat) (department : Option String) (onlyAbsent : Bool)
    (emp : Employee) : List ReportRow :=
  match department with
  | some dept =>
    if emp.department ≠ dept then []
    else
      dates.flatMap (reportRowsFor emp
        (db.rosters.find? (fun r => r.employeeId == emp.id)) allAtt
        onlyAbsent)
  | none =>
    dates.flatMap (reportRowsFor emp
      (db.rosters.find? (fun r => r.employeeId == emp.id)) allAtt
      onlyAbsent)

/-- GET /api/reports (RootStackNavigator lines 725 to 796): active
employees (optionally department-filtered) x every date of the
inclusive range, classified P or A; week-off dates without a session
produce no row; rows finally sorted by descending date. Dates absent
from the query string yield the 400 Dates-required rejection. -/
def buildReport (db : DB) (fromDate? toDate? : Option Nat)
    (department : Option String) (onlyAbsent : Bool) : ReportResult :=
  match fromDate?, toDate? with
  | some fromDate, some toDate =>
    let allAtt := db.attendance.filter
      (fun a => fromDate ≤ a.date && a.date ≤ toDate)
    let dates := List.range' fromDate (toDate + 1 - fromDate)
    let records := (db.employees.filter (fun e => e.isActive)).flatMap
      (reportRowsForEmployee db allAtt dates department onlyAbsent)
    .ok (sortByDateDesc records)
  | _, _ => .validationError

/-- The scan request the gate-entry screen posts to /api/gate/entry. -/
structure EntryRequest where
  slpidValue : String
  allowWeekOff : Bool
  deriving Repr, DecidableEq

/-- handleBarCodeScanned (GateEntryScreen lines 111 to 125): camera
scans are ignored during the cooldown, otherwise the scanned data is
uppercased and submitted with no override. -/
def handleBarCodeScanned (cooldown : Bool) (data : String) :
    Option EntryRequest :=
  if cooldown then none
  else some { slpidValue := jsToUpper data, allowWeekOff := false }

/-- handleExternalScannerInput (GateEntryScreen lines 127 to 134): in
scanner mode an input of length at least 6 is uppercased and
submitted with no override. -/
def handleExternalScannerInput (scannerMode : Bool) (text : String) :
    Option EntryRequest :=
  if 6 ≤ text.data.length && scannerMode then
    some { slpidValue := jsToUpper text, allowWeekOff := false }
  else none

/-- handleScan (GateEntryScreen lines 136 to 140): manual entry is
trimmed; a blank entry is ignored, otherwise the trimmed text is
uppercased and submitted with no override. -/
def handleScan (slpid : String) : Option EntryRequest :=
  if jsTrim slpid = "" then none
  else some { slpidValue := jsToUpper (jsTrim slpid), allowWeekOff := false }

/-- What the gate-entry screen does with a failed request, keyed on the
error message (GateEntryScreen lines 88 to 108, the onError handler of
entryMutation). -/
inductive ClientReaction where
  | weekOffModal
  | infoToast
  | errorToast
  deriving Repr, DecidableEq

/-- The onError dispatch of the gate-entry screen. -/
def onErrorDispatch (msg : String) : ClientReaction :=
  if jsIncludes msg "week off" then .weekOffModal
  else if jsIncludes msg "already scanned" then .infoToast
  else .errorToast

/-- Does apiRequest treat a status as a failure (fetch res.ok is
status 200 to 299; a non-ok response is thrown to onError)? -/
def isHttpError (status : Nat) : Bool := !(200 ≤ status && status < 300)

/-- handleSearch of the reports screen (ReportsScreen lines 72 to 80):
an inverted range never reaches the server; it only shows an error
toast. -/
inductive SearchAction where
  | showError (msg : String)
  | runSearch
  deriving Repr, DecidableEq

/-- The client-side date-range guard of the reports screen. -/
def handleSearch (fromDate toDate : Nat) : SearchAction :=
  if toDate < fromDate then .showError "From date cannot be after To date"
  else .runSearch

/-- Sample employee, from the seed data (server/seed.ts). -/
def empRahul : Employee :=
  { id := 1, slpid := "SLP001", name := "Rahul Kumar",
    department := "Inbound", isActive := true }

/-- Second sample employee, from the seed data. -/
def empPriya : Employee :=
  { id := 2, slpid := "SLP002", name := "Priya Sharma",
    department := "Outbound", isActive := true }

/-- Roster giving employee 1 a Sunday rest day (day number 3 is a
Sunday: (3 + 4) mod 7 = 0). -/
def rosterSunday : Roster :=
  { employeeId := 1, shiftName := "Morning", weekOff := "Sunday" }

/-- Roster giving employee 1 a Thursday rest day (day number 0,
1970-01-01, was a Thursday). -/
def rosterThursday : Roster :=
  { employeeId := 1, shiftName := "Morning", weekOff := "Thursday" }

/-- An open session of employee 1 with gate-in at clock 0. -/
def attOpen1 : Attendance :=
  { id := 10, employeeId := 1, slpid := "SLP001", shiftName := "Morning",
    department := "Inbound", isWeekOffEntry := false, isOvertime := false,
    date := 3, gateInTime := 0, gateOutTime := none }

/-- An open session of employee 2 with gate-in at clock 0. -/
def attOpen2 : Attendance :=
  { id := 11, employeeId := 2, slpid := "SLP002", shiftName := "Evening",
    department := "Outbound", isWeekOffEntry := false, isOvertime := false,
    date := 3, gateInTime := 0, gateOutTime := none }

/-- A session of employee 1 already closed after one hour. -/
def attClosed1 : Attendance :=
  { id := 10, employeeId := 1, slpid := "SLP001", shiftName := "Morning",
    department := "Inbound", isWeekOffEntry := false, isOvertime := false,
    date := 3, gateInTime := 0, gateOutTime := some msPerHour }

/-- A session of employee 2 dated day 1, closed after ten hours. -/
def attPresent2 : Attendance :=
  { id := 12, employeeId := 2, slpid := "SLP002", shiftName := "Evening",
    department := "Outbound", isWeekOffEntry := false, isOvertime := true,
    date := 1, gateInTime := 0, gateOutTime := some (10 * msPerHour) }

/-- Store with one employee and one open session. -/
def dbGate : DB :=
  { employees := [empRahul], rosters := [rosterSunday],
    attendance := [attOpen1] }

/-- Store with one employee, a Sunday rest day, and no sessions. -/
def dbFresh : DB :=
  { employees := [empRahul], rosters := [rosterSunday], attendance := [] }

/-- Store with two open sessions (ids 10 and 11). -/
def dbBulk : DB :=
  { employees := [empRahul, empPriya], rosters := [],
    attendance := [attOpen1, attOpen2] }

/-- Store whose only session (id 10) is already closed. -/
def dbBulkClosed : DB :=
  { employees := [empRahul], rosters := [], attendance := [attClosed1] }

/-- Store for the report claims: employee 1 has a Thursday rest day and
no sessions, employee 2 has no roster and one session on day 1. -/
def dbReport : DB :=
  { employees := [empRahul, empPriya], rosters := [rosterThursday],
    attendance := [attPresent2] }

/-- Store with one employee whose rest day is Thursday and an empty
attendance table (day 0 is a Thursday). -/
def dbThursday : DB :=
  { employees := [empRahul], rosters := [rosterThursday], attendance := [] }

/-- Does the department filter admit this employee (the reports route
skips an employee when a filter is given and differs)? -/
def matchesDept (department : Option String) (emp : Employee) : Bool :=
  match department with
  | some dept => emp.department == dept
  | none => true

/-- Characterization of when the reports route emits a row for an
(employee, date) pair: with only-absent off, exactly when a session
matches or the date is not the rest day; with only-absent on, exactly
when no session matches and the date is not the rest day. -/
def emitsRow (emp : Employee) (ros : Option Roster)
    (allAtt : List Attendance) (onlyAbsent : Bool) (date : Nat) : Bool :=
  let isWeekOff := match ros with
    | some r => jsToLower r.weekOff == jsToLower (weekdayName date)
    | none => false
  let att := allAtt.find? (fun a => a.employeeId == emp.id && a.date == date)
  if onlyAbsent then att.isNone && !isWeekOff
  else att.isSome || !isWeekOff

/-- Number of attendance rows of one employee with a null gate-out
timestamp (the open sessions of that employee). -/
def openCount (db : DB) (empId : Nat) : Nat :=
  db.attendance.countP (fun a => a.employeeId == empId && a.gateOutTime.isNone)

/-- The central ledger invariant: every employee has at most one open
session. -/
def OpenInvariant (db : DB) : Prop := ∀ empId, openCount db empId ≤ 1

/-- One mutation step of the attendance ledger: a gate scan or a bulk
gate-out, with arbitrary inputs. -/
inductive LedgerStep : DB → DB → Prop where
  | scan (db : DB) (slpid : String) (allow : Bool) (now : ℚ)
      (today freshId : Nat) :
      LedgerStep db (scanGate db slpid allow now today freshId).2
  | bulk (db : DB) (ids : List Nat) (now : ℚ) :
      LedgerStep db (bulkGateOut db ids now).2

/-- Ledger states reachable from an empty attendance table by gate
scans and bulk gate-outs. -/
inductive LedgerReachable : DB → Prop where
  | init (emps : List Employee) (ros : List Roster) :
      LedgerReachable { employees := emps, rosters := ros, attendance := [] }
  | step {db db2 : DB} : LedgerReachable db → LedgerStep db db2 →
      LedgerReachable db2

/-! Helper lemmas about the character-level string operations. -/

theorem char_toNat_ofNat (n : Nat) (h : n.isValidChar) :
    (Char.ofNat n).toNat = n := by
  simp [Char.ofNat, h, Char.ofNatAux, Char.toNat, UInt32.toNat]

theorem char_toUpper_toNat (c : Char) (h : c.toNat ≥ 97 ∧ c.toNat ≤ 122) :
    (Char.toUpper c).toNat = c.toNat - 32 := by
  have hv : (c.toNat - 32).isValidChar := by
    left; omega
  simp only [Char.toUpper, if_pos h]
  exact char_toNat_ofNat _ hv

theorem char_toUpper_eq_self (c : Char)
    (h : ¬(c.toNat ≥ 97 ∧ c.toNat ≤ 122)) : Char.toUpper c = c := by
  simp only [Char.toUpper, if_neg h]

theorem char_toUpper_idem (c : Char) :
    (Char.toUpper c).toUpper = c.toUpper := by
  by_cases h : c.toNat ≥ 97 ∧ c.toNat ≤ 122
  · have h2 : (Char.toUpper c).toNat = c.toNat - 32 := char_toUpper_toNat c h
    apply char_toUpper_eq_self
    omega
  · simp only [char_toUpper_eq_self c h]

theorem char_ws_false (c : Char) (h : 33 ≤ c.toNat) :
    c.isWhitespace = false := by
  have h32 : (' ').toNat = 32 := rfl
  have h9 : ('\t').toNat = 9 := rfl
  have h13 : ('\x0d').toNat = 13 := rfl
  have h10 : ('\n').toNat = 10 := rfl
  simp only [Char.isWhitespace, Bool.or_eq_false_iff, decide_eq_false_iff_not]
  refine ⟨⟨⟨?_, ?_⟩, ?_⟩, ?_⟩ <;> rintro rfl <;> omega

theorem char_ws_toUpper (c : Char) :
    (Char.toUpper c).isWhitespace = c.isWhitespace := by
  by_cases h : c.toNat ≥ 97 ∧ c.toNat ≤ 122
  · have h2 : (Char.toUpper c).toNat = c.toNat - 32 := char_toUpper_toNat c h
    rw [char_ws_false _ (by omega), char_ws_false _ (by omega)]
  · rw [char_toUpper_eq_self c h]

theorem jsToUpper_idem (s : String) :
    jsToUpper (jsToUpper s) = jsToUpper s := by
  simp only [jsToUpper, List.map_map]
  congr 1
  apply List.map_congr_left
  intro c _
  exact char_toUpper_idem c

theorem jsToUpper_length (s : String) :
    (jsToUpper s).data.length = s.data.length := by
  simp [jsToUpper]

theorem jsTrim_jsToUpper (s : String) :
    jsTrim (jsToUpper s) = jsToUpper (jsTrim s) := by
  have hws : Char.isWhitespace ∘ Char.toUpper = Char.isWhitespace := by
    funext c
    exact char_ws_toUpper c
  simp only [jsTrim, jsToUpper, ← List.map_reverse, List.dropWhile_map, hws]

theorem string_data_eq_nil (t : String) : t.data = [] ↔ t = "" := by
  cases t with
  | mk d =>
    constructor
    · rintro rfl
      rfl
    · intro h
      simpa using congrArg String.data h

theorem jsTrim_jsToUpper_empty (s : String) :
    (jsTrim (jsToUpper s) = "" ↔ jsTrim s = "") := by
  rw [jsTrim_jsToUpper]
  have h1 : jsToUpper (jsTrim s) = "" ↔ (jsTrim s).data.map Char.toUpper = [] := by
    rw [← string_data_eq_nil]
    exact Iff.rfl
  rw [h1, List.map_eq_nil_iff, string_data_eq_nil]

/-- C5: the hours and overtime calculator. Elapsed hours are the
millisecond difference divided by 3600000, clamped below at zero so
they are never negative; with a non-skewed clock the clamp is the
identity. The overtime test is inclusive at the 9.0-hour boundary:
exactly 9 hours is overtime, 8.999 hours is not. -/
theorem hours_overtime_calculator (start endT : ℚ) (h : start ≤ endT) :
    (∀ a b : ℚ, 0 ≤ hoursWorked a b) ∧
    hoursWorked start endT = (endT - start) / msPerHour ∧
    (∀ e : ℚ, isOvertime e = true ↔ 9 ≤ e) ∧
    isOvertime 9 = true ∧
    isOvertime (8999 / 1000 : ℚ) = false := by
  refine ⟨fun a b => le_max_left 0 _, ?_, fun e => by simp [isOvertime],
    by norm_num [isOvertime], by norm_num [isOvertime]⟩
  unfold hoursWorked
  apply max_eq_right
  apply div_nonneg
  · linarith
  · norm_num [msPerHour]

/-- Witness for C5 at start 0 and end 7200000 milliseconds (two
hours). -/
theorem hours_overtime_calculator_witness :
    (0 : ℚ) ≤ 7200000 ∧ hoursWorked 0 7200000 = (7200000 - 0) / msPerHour :=
  ⟨by norm_num, (hours_overtime_calculator 0 7200000 (by norm_num)).2.1⟩

/-- C10: every badge code submitted from the three input modes of the
gate-entry screen (camera scan, external scanner, manual entry) is
uppercased before the request is posted, so submitting a badge string
and submitting its uppercase form produce the identical request, and
every issued request already carries an uppercase badge value. -/
theorem badge_entry_uppercase (s : String) (cooldown scannerMode : Bool) :
    handleBarCodeScanned cooldown (jsToUpper s)
      = handleBarCodeScanned cooldown s ∧
    handleExternalScannerInput scannerMode (jsToUpper s)
      = handleExternalScannerInput scannerMode s ∧
    handleScan (jsToUpper s) = handleScan s ∧
    (handleBarCodeScanned cooldown s).map
        (fun r => { r with slpidValue := jsToUpper r.slpidValue })
      = handleBarCodeScanned cooldown s ∧
    (handleExternalScannerInput scannerMode s).map
        (fun r => { r with slpidValue := jsToUpper r.slpidValue })
      = handleExternalScannerInput scannerMode s ∧
    (handleScan s).map
        (fun r => { r with slpidValue := jsToUpper r.slpidValue })
      = handleScan s := by
  refine ⟨?_, ?_, ?_, ?_, ?_, ?_⟩
  · unfold handleBarCodeScanned
    cases cooldown <;> simp [jsToUpper_idem]
  · unfold handleExternalScannerInput
    rw [jsToUpper_length]
    by_cases h : (6 ≤ s.data.length && scannerMode) = true
    · rw [if_pos h, if_pos h, jsToUpper_idem]
    · rw [if_neg h, if_neg h]
  · unfold handleScan
    by_cases h : jsTrim s = ""
    · rw [if_pos h, if_pos ((jsTrim_jsToUpper_empty s).mpr h)]
    · rw [if_neg h, if_neg (fun hc => h ((jsTrim_jsToUpper_empty s).mp hc)),
        jsTrim_jsToUpper, jsToUpper_idem]
  · unfold handleBarCodeScanned
    cases cooldown <;> simp [jsToUpper_idem]
  · unfold handleExternalScannerInput
    by_cases h : (6 ≤ s.data.length && scannerMode) = true
    · rw [if_pos h]
      simp [jsToUpper_idem]
    · rw [if_neg h]
      rfl
  · unfold handleScan
    by_cases h : jsTrim s = ""
    · rw [if_pos h]
      rfl
    · rw [if_neg h]
      simp [jsToUpper_idem]

/-- C2: when the resolved employee has an open session with at least
one elapsed hour, the scan is a gate-out: the outcome carries the
employee name and the elapsed hours, and the open session is persisted
with gate-out timestamp now and overtime flag (elapsed at least 9
hours); nothing else changes. -/
theorem scan_gate_out (db : DB) (slpid : String) (allow : Bool)
    (now : ℚ) (today freshId : Nat) (emp : Employee) (act : Attendance)
    (hs : slpid ≠ "")
    (hemp : db.employees.find? (fun e => e.slpid == jsToUpper slpid) = some emp)
    (hact : emp.isActive = true)
    (hopen : db.attendance.find?
      (fun a => a.employeeId == emp.id && a.gateOutTime.isNone) = some act)
    (helapsed : 1 ≤ (now - act.gateInTime) / msPerHour) :
    scanGate db slpid allow now today freshId =
      (.gateOut emp.name ((now - act.gateInTime) / msPerHour),
       { db with attendance := db.attendance.map (fun a =>
           if a.id == act.id then
             { a with gateOutTime := some now,
                      isOvertime :=
                        isOvertime ((now - act.gateInTime) / msPerHour) }
           else a) }) := by
  have hs2 : (slpid = "") = False := eq_false hs
  have hlt : ¬((now - act.gateInTime) / msPerHour < 1) := not_lt.mpr helapsed
  simp only [scanGate, hs2, if_false, hemp, hact, hopen, Bool.not_true,
    Bool.false_eq_true, if_neg hlt]

/-- C3: while an open session is less than one hour old, every scan of
the same badge is a duplicate-scan outcome carrying the elapsed hours,
and the store is left unchanged, however many times the badge is
scanned inside the window. -/
theorem duplicate_scan_idempotent (db : DB) (slpid : String) (allow : Bool)
    (today freshId : Nat) (emp : Employee) (act : Attendance) (ts : List ℚ)
    (hs : slpid ≠ "")
    (hemp : db.employees.find? (fun e => e.slpid == jsToUpper slpid) = some emp)
    (hact : emp.isActive = true)
    (hopen : db.attendance.find?
      (fun a => a.employeeId == emp.id && a.gateOutTime.isNone) = some act)
    (hts : ∀ t ∈ ts, (t - act.gateInTime) / msPerHour < 1) :
    (∀ t ∈ ts, scanGate db slpid allow t today freshId
        = (.duplicateScan emp.name ((t - act.gateInTime) / msPerHour), db)) ∧
    ts.foldl (fun d t => (scanGate d slpid allow t today freshId).2) db
      = db := by
  have hs2 : (slpid = "") = False := eq_false hs
  have single : ∀ t : ℚ, (t - act.gateInTime) / msPerHour < 1 →
      scanGate db slpid allow t today freshId
        = (.duplicateScan emp.name ((t - act.gateInTime) / msPerHour), db) := by
    intro t ht
    simp only [scanGate, hs2, if_false, hemp, hact, hopen, Bool.not_true,
      Bool.false_eq_true, if_pos ht]
  have fold : ∀ us : List ℚ,
      (∀ t ∈ us, (t - act.gateInTime) / msPerHour < 1) →
      us.foldl (fun d t => (scanGate d slpid allow t today freshId).2) db
        = db := by
    intro us
    induction us with
    | nil =>
      intro _
      rfl
    | cons t rest ih =>
      intro h
      have h1 := single t (h t (List.mem_cons_self t rest))
      simp only [List.foldl_cons, h1]
      exact ih (fun u hu => h u (List.mem_cons_of_mem t hu))
  exact ⟨fun t ht => single t (hts t ht), fold ts hts⟩

/-- C4: a fresh scan on the roster rest day with no override is a
week-off-confirmation-required outcome and creates no session; the
same badge resubmitted with the override flag set is a gate-in that
creates a session carrying the week-off-override flag. -/
theorem week_off_gate (db : DB) (slpid : String) (now now2 : ℚ)
    (today freshId freshId2 : Nat) (emp : Employee) (ros : Roster)
    (hs : slpid ≠ "")
    (hemp : db.employees.find? (fun e => e.slpid == jsToUpper slpid) = some emp)
    (hact : emp.isActive = true)
    (hopen : db.attendance.find?
      (fun a => a.employeeId == emp.id && a.gateOutTime.isNone) = none)
    (hros : db.rosters.find? (fun r => r.employeeId == emp.id) = some ros)
    (hwo : (jsToLower ros.weekOff == jsToLower (weekdayName today)) = true) :
    scanGate db slpid false now today freshId
      = (.weekOffConfirm emp.name, db) ∧
    scanGate db slpid true now2 today freshId2 =
      (.gateIn emp.name,
       { db with attendance := db.attendance ++
           [{ id := freshId2, employeeId := emp.id, slpid := emp.slpid,
              shiftName := ros.shiftName, department := emp.department,
              isWeekOffEntry := true, isOvertime := false, date := today,
              gateInTime := now2, gateOutTime := none }] }) := by
  have hs2 : (slpid = "") = False := eq_false hs
  constructor
  · simp only [scanGate, hs2, if_false, hemp, hact, hopen, hros, hwo,
      Bool.not_true, Bool.false_eq_true, Bool.not_false, Bool.and_true,
      if_true]
  · simp only [scanGate, hs2, if_false, hemp, hact, hopen, hros, hwo,
      Bool.not_true, Bool.false_eq_true, Bool.not_false, Bool.and_true,
      Bool.and_false, if_false]

/-- Witness for C2: scanning employee SLP001 two hours after the open
gate-in closes the session without overtime. -/
theorem scan_gate_out_witness :
    scanGate dbGate "SLP001" false (2 * msPerHour) 4 20 =
      (.gateOut empRahul.name
        ((2 * msPerHour - attOpen1.gateInTime) / msPerHour),
       { dbGate with attendance := dbGate.attendance.map (fun a =>
           if a.id == attOpen1.id then
             { a with gateOutTime := some (2 * msPerHour),
                      isOvertime :=
                        isOvertime
                          ((2 * msPerHour - attOpen1.gateInTime) / msPerHour) }
           else a) }) :=
  scan_gate_out dbGate "SLP001" false (2 * msPerHour) 4 20 empRahul attOpen1
    (by decide) (by decide) (by decide) (by decide)
    (by norm_num [attOpen1, msPerHour])

/-- Witness for C3: two scans inside the hour, at 30 and 45 minutes,
both report duplicate-scan and leave the store unchanged. -/
theorem duplicate_scan_idempotent_witness :
    (∀ t ∈ [(1800000 : ℚ), 2700000], scanGate dbGate "SLP001" false t 4 20
        = (.duplicateScan empRahul.name
            ((t - attOpen1.gateInTime) / msPerHour), dbGate)) ∧
    [(1800000 : ℚ), 2700000].foldl
        (fun d t => (scanGate d "SLP001" false t 4 20).2) dbGate
      = dbGate :=
  duplicate_scan_idempotent dbGate "SLP001" false 4 20 empRahul attOpen1
    [1800000, 2700000] (by decide) (by decide) (by decide) (by decide)
    (by intro t ht
        fin_cases ht <;> norm_num [attOpen1, msPerHour])

/-- Witness for C4: on day 3, a Sunday, the rest-day employee is asked
for confirmation with no session created, and the override creates the
flagged session. -/
theorem week_off_gate_witness :
    scanGate dbFresh "SLP001" false 0 3 30
      = (.weekOffConfirm empRahul.name, dbFresh) ∧
    scanGate dbFresh "SLP001" true 0 3 31 =
      (.gateIn empRahul.name,
       { dbFresh with attendance := dbFresh.attendance ++
           [{ id := 31, employeeId := empRahul.id, slpid := empRahul.slpid,
              shiftName := rosterSunday.shiftName,
              department := empRahul.department,
              isWeekOffEntry := true, isOvertime := false, date := 3,
              gateInTime := 0, gateOutTime := none }] }) :=
  week_off_gate dbFresh "SLP001" 0 0 3 30 31 empRahul rosterSunday
    (by decide) (by decide) (by decide) (by decide) (by decide) (by decide)

theorem countP_map_close_le (empId i : Nat) (now : ℚ) (b : Bool)
    (l : List Attendance) :
    List.countP (fun a => a.employeeId == empId && a.gateOutTime.isNone)
      (l.map (fun a => if a.id == i then
        { a with gateOutTime := some now, isOvertime := b } else a))
    ≤ List.countP (fun a => a.employeeId == empId && a.gateOutTime.isNone)
        l := by
  rw [List.countP_map]
  apply List.countP_mono_left
  intro a _ h
  simp only [Function.comp_apply] at h
  by_cases hid : (a.id == i) = true
  · rw [if_pos hid] at h
    simp at h
  · rwa [if_neg hid] at h

theorem scanGate_preserves_open (db : DB) (s : String) (al : Bool)
    (now : ℚ) (today fid : Nat) (hinv : OpenInvariant db) :
    OpenInvariant (scanGate db s al now today fid).2 := by
  unfold scanGate
  split
  · exact hinv
  · split
    · exact hinv
    · rename_i emp hemp
      split
      · exact hinv
      · split
        · rename_i act hact
          dsimp only
          split
          · exact hinv
          · intro empId
            refine le_trans ?_ (hinv empId)
            exact countP_map_close_le empId act.id now _ db.attendance
        · rename_i hnone
          dsimp only
          split
          · exact hinv
          · intro empId
            unfold openCount
            rw [List.countP_append]
            by_cases he : empId = emp.id
            · subst he
              have hzero : List.countP
                  (fun a => a.employeeId == emp.id && a.gateOutTime.isNone)
                  db.attendance = 0 :=
                List.countP_eq_zero.mpr
                  (fun a ha => List.find?_eq_none.mp hnone a ha)
              rw [hzero]
              simp [List.countP_cons]
            · have h1 : (emp.id == empId) = false := by
                simp only [beq_eq_false_iff_ne, ne_eq]
                exact fun hh => he hh.symm
              simp only [List.countP_cons, List.countP_nil, h1,
                Bool.false_and, if_false]
              exact hinv empId

theorem bulkCloseLoop_open_le (now : ℚ) (ids : List Nat) :
    ∀ (db : DB) (empId : Nat),
    openCount (bulkCloseLoop now db ids).1 empId ≤ openCount db empId := by
  induction ids with
  | nil =>
    intro db empId
    exact le_refl _
  | cons i rest ih =>
    intro db empId
    unfold bulkCloseLoop
    rcases h : db.attendance.find? (fun a => a.id == i) with _ | att <;>
      rw [h] <;> dsimp only
    · exact ih db empId
    · refine le_trans (ih _ empId) ?_
      simp only [openCount]
      exact countP_map_close_le empId i now _ db.attendance

theorem bulkGateOut_preserves_open (db : DB) (ids : List Nat) (now : ℚ)
    (hinv : OpenInvariant db) :
    OpenInvariant (bulkGateOut db ids now).2 := by
  unfold bulkGateOut
  split
  · exact hinv
  · intro empId
    exact le_trans (bulkCloseLoop_open_le now ids db empId) (hinv empId)

/-- C1: at most one open session per employee. Every scan step and
every bulk gate-out step preserves the invariant, and every ledger
state reachable from an empty attendance table satisfies it. -/
theorem open_session_invariant :
    (∀ db db2 : DB, OpenInvariant db → LedgerStep db db2 →
      OpenInvariant db2) ∧
    (∀ db : DB, LedgerReachable db → OpenInvariant db) := by
  have hstep : ∀ db db2 : DB, OpenInvariant db → LedgerStep db db2 →
      OpenInvariant db2 := by
    intro db db2 hinv hs
    cases hs with
    | scan slpid allow now today freshId =>
      exact scanGate_preserves_open db slpid allow now today freshId hinv
    | bulk ids now =>
      exact bulkGateOut_preserves_open db ids now hinv
  refine ⟨hstep, ?_⟩
  intro db hr
  induction hr with
  | init emps ros =>
    intro empId
    simp [openCount]
  | step _ hs ih =>
    exact hstep _ _ ih hs

/-- Witness for C1: the invariant holds after a gate-in step from the
empty ledger. -/
theorem open_session_invariant_witness :
    OpenInvariant (scanGate dbFresh "SLP001" true 0 3 31).2 :=
  open_session_invariant.1 dbFresh _
    (open_session_invariant.2 dbFresh
      (LedgerReachable.init [empRahul] [rosterSunday]))
    (LedgerStep.scan dbFresh "SLP001" true 0 3 31)


theorem bool_eq_of_iff {a b : Bool} (h : a = true ↔ b = true) : a = b := by
  cases a <;> cases b <;> simp_all

theorem find?_isSome_map_of_id (f : Attendance → Attendance)
    (hf : ∀ a, (f a).id = a.id) (l : List Attendance) (i2 : Nat) :
    ((l.map f).find? (fun a => a.id == i2)).isSome
      = (l.find? (fun a => a.id == i2)).isSome := by
  apply bool_eq_of_iff
  rw [List.find?_isSome, List.find?_isSome]
  constructor
  · rintro ⟨x, hx, hpx⟩
    rcases List.mem_map.mp hx with ⟨a, ha, rfl⟩
    refine ⟨a, ha, ?_⟩
    simpa [hf a] using hpx
  · rintro ⟨a, ha, hpa⟩
    refine ⟨f a, List.mem_map_of_mem f ha, ?_⟩
    simpa [hf a] using hpa

theorem countP_find?_map_of_id (f : Attendance → Attendance)
    (hf : ∀ a, (f a).id = a.id) (l : List Attendance) (ids : List Nat) :
    ids.countP (fun i2 => ((l.map f).find? (fun a => a.id == i2)).isSome)
      = ids.countP (fun i2 => (l.find? (fun a => a.id == i2)).isSome) := by
  induction ids with
  | nil => rfl
  | cons j rest ih2 =>
    rw [List.countP_cons, List.countP_cons, ih2,
      find?_isSome_map_of_id f hf l j]

theorem bulkCloseLoop_spec (now : ℚ) (ids : List Nat) :
    ∀ db : DB, (db.attendance.map (fun a => a.id)).Nodup →
    bulkCloseLoop now db ids =
      ({ db with attendance := db.attendance.map (fun a =>
          if ids.contains a.id then
            { a with gateOutTime := some now,
                     isOvertime :=
                       isOvertime ((now - a.gateInTime) / msPerHour) }
          else a) },
       ids.countP (fun i =>
         (db.attendance.find? (fun a => a.id == i)).isSome)) := by
  induction ids with
  | nil =>
    intro db hnd
    simp only [bulkCloseLoop, List.contains_nil, Bool.false_eq_true,
      if_false, List.countP_nil]
    rw [List.map_id']
  | cons i rest ih =>
    intro db hnd
    unfold bulkCloseLoop
    rcases h : db.attendance.find? (fun a => a.id == i) with _ | att <;>
      rw [h] <;> dsimp only
    · have hno : ∀ a ∈ db.attendance, (a.id == i) = false := by
        intro a ha
        have h2 := List.find?_eq_none.mp h a ha
        simpa using h2
      rw [ih db hnd]
      simp only [Prod.mk.injEq]
      constructor
      · congr 1
        apply List.map_congr_left
        intro a ha
        rw [List.contains_cons, hno a ha, Bool.false_or]
      · rw [List.countP_cons, h]
        simp
    · have hmem := List.mem_of_find?_eq_some h
      have hpi := List.find?_some h
      have hid : ∀ a : Attendance,
          ((if a.id == i then
            { a with gateOutTime := some now,
                     isOvertime :=
                       isOvertime ((now - att.gateInTime) / msPerHour) }
          else a) : Attendance).id = a.id := by
        intro a
        by_cases hc : (a.id == i) = true
        · rw [if_pos hc]
        · rw [if_neg hc]
      have hnd2 : ((db.attendance.map (fun a =>
          if a.id == i then
            { a with gateOutTime := some now,
                     isOvertime :=
                       isOvertime ((now - att.gateInTime) / msPerHour) }
          else a)).map (fun a => a.id)).Nodup := by
        rw [List.map_map]
        have heq : ((fun a : Attendance => a.id) ∘ (fun a =>
            if a.id == i then
              { a with gateOutTime := some now,
                       isOvertime :=
                         isOvertime ((now - att.gateInTime) / msPerHour) }
            else a)) = fun a : Attendance => a.id := by
          funext a
          exact hid a
        rw [heq]
        exact hnd
      rw [ih _ hnd2]
      simp only [Prod.mk.injEq]
      constructor
      · congr 1
        rw [List.map_map]
        apply List.map_congr_left
        intro a ha
        simp only [Function.comp_apply, List.contains_cons]
        by_cases hc : (a.id == i) = true
        · have haid : a.id = i := by simpa using hc
          have hattid : att.id = i := by simpa using hpi
          have hatt : a = att :=
            List.inj_on_of_nodup_map hnd ha hmem (by rw [haid, hattid])
          subst hatt
          rw [if_pos hc]
          by_cases hr : rest.contains a.id = true
          · simp [hr, hc]
          · simp [hr, hc]
        · rw [if_neg hc]
          simp only [hc, Bool.false_or]
      · rw [List.countP_cons, h]
        simp only [Option.isSome_some, if_true]
        congr 1
        exact countP_find?_map_of_id _ hid db.attendance rest

/-- C6 amended: for a nonempty identifier list over a ledger with
distinct session ids, every occurrence of an identifier that resolves
to an existing session is processed, whether that session is open or
already closed: its gate-out timestamp is overwritten with now and its
overtime flag recomputed from its gate-in time. Only identifiers that
resolve to no session are skipped, and the returned count is the
number of resolving occurrences, duplicates counted once per
occurrence. -/
theorem bulk_close_amended (db : DB) (ids : List Nat) (now : ℚ)
    (hne : ids ≠ [])
    (hnodup : (db.attendance.map (fun a => a.id)).Nodup) :
    bulkGateOut db ids now =
      (.ok (ids.countP (fun i =>
          (db.attendance.find? (fun a => a.id == i)).isSome)),
       { db with attendance := db.attendance.map (fun a =>
           if ids.contains a.id then
             { a with gateOutTime := some now,
                      isOvertime :=
                        isOvertime ((now - a.gateInTime) / msPerHour) }
           else a) }) := by
  unfold bulkGateOut
  rw [if_neg (by simpa [List.isEmpty_iff] using hne),
    bulkCloseLoop_spec now ids db hnodup]

/-- Witness for the amended C6 at the list [10, 11, 10] over two open
sessions. -/
theorem bulk_close_amended_witness :
    bulkGateOut dbBulk [10, 11, 10] (2 * msPerHour) =
      (.ok ([10, 11, 10].countP (fun i =>
          (dbBulk.attendance.find? (fun a => a.id == i)).isSome)),
       { dbBulk with attendance := dbBulk.attendance.map (fun a =>
           if [10, 11, 10].contains a.id then
             { a with gateOutTime := some (2 * msPerHour),
                      isOvertime :=
                        isOvertime
                          ((2 * msPerHour - a.gateInTime) / msPerHour) }
           else a) }) :=
  bulk_close_amended dbBulk [10, 11, 10] (2 * msPerHour) (by decide)
    (by decide)

/-- C6 counterexample: with open sessions 10 and 11, the identifier
list [10, 11, 10] reports three closures, not two, because the
duplicate occurrence is processed a second time; and a single
identifier naming an already-closed session is not skipped: it is
counted and its gate-out timestamp is overwritten with the new now. -/
theorem bulk_close_counterexample :
    (bulkGateOut dbBulk [10, 11, 10] (2 * msPerHour)).1
      = BulkResult.ok 3 ∧
    BulkResult.ok 3 ≠ BulkResult.ok 2 ∧
    (bulkGateOut dbBulkClosed [10] (10 * msPerHour)).1
      = BulkResult.ok 1 ∧
    (bulkGateOut dbBulkClosed [10] (10 * msPerHour)).2.attendance.map
        (fun a => a.gateOutTime)
      = [some (10 * msPerHour)] := by
  refine ⟨?_, by decide, ?_, ?_⟩ <;>
    simp [bulkGateOut, bulkCloseLoop, dbBulk, dbBulkClosed, attOpen1,
      attOpen2, attClosed1]

/-- C8 counterexample: a scan of badge SLP001 thirty minutes after its
open gate-in produces the duplicate-scan decision outcome, yet the
route delivers it with HTTP status 400, an error status that the
fetch-based client rejects into the onError handler, which recognizes
it by the substring of its message. -/
theorem gate_error_channel_counterexample :
    (scanGate dbGate "SLP001" false 1800000 4 99).1
      = GateResult.duplicateScan empRahul.name
          ((1800000 - attOpen1.gateInTime) / msPerHour) ∧
    isHttpError (gateStatus
        (scanGate dbGate "SLP001" false 1800000 4 99).1) = true ∧
    onErrorDispatch (gateMessage
        (scanGate dbGate "SLP001" false 1800000 4 99).1)
      = ClientReaction.infoToast := by
  have hfind : dbGate.employees.find?
      (fun e => e.slpid == jsToUpper "SLP001") = some empRahul := by decide
  have hopen : dbGate.attendance.find?
      (fun a => a.employeeId == empRahul.id && a.gateOutTime.isNone)
      = some attOpen1 := by decide
  have hlt : ((1800000 : ℚ) - attOpen1.gateInTime) / msPerHour < 1 := by
    norm_num [attOpen1, msPerHour]
  have hact : empRahul.isActive = true := rfl
  have h1 : scanGate dbGate "SLP001" false 1800000 4 99
      = (GateResult.duplicateScan empRahul.name
          ((1800000 - attOpen1.gateInTime) / msPerHour), dbGate) := by
    simp only [scanGate, if_neg (by decide : ¬("SLP001" = "")), hfind,
      hact, hopen, if_pos hlt, Bool.not_true, Bool.false_eq_true,
      if_false]
  refine ⟨?_, ?_, ?_⟩
  · rw [h1]
  · rw [h1]
    rfl
  · rw [h1]
    decide

/-- C8 amended: the decision outcomes duplicate-scan and
week-off-confirmation-required are delivered through the HTTP error
channel (statuses 400 and 409, both rejected by the client transport),
not as success results; only gate-in and gate-out arrive as 200
successes. The client distinguishes the decision outcomes from true
failures (not-found 404, inactive 403, validation 400) by message
substring, reacting with the week-off modal or an informational toast
instead of an error toast. -/
theorem gate_outcome_channels (name : String) (h q : ℚ) :
    gateStatus (.duplicateScan name h) = 400 ∧
    gateStatus (.weekOffConfirm name) = 409 ∧
    isHttpError (gateStatus (.duplicateScan name h)) = true ∧
    isHttpError (gateStatus (.weekOffConfirm name)) = true ∧
    gateStatus (.gateIn name) = 200 ∧
    gateStatus (.gateOut name q) = 200 ∧
    isHttpError (gateStatus (.gateIn name)) = false ∧
    isHttpError (gateStatus (.gateOut name q)) = false ∧
    isHttpError (gateStatus .notFound) = true ∧
    isHttpError (gateStatus .inactive) = true ∧
    isHttpError (gateStatus .validationError) = true ∧
    onErrorDispatch (gateMessage (.weekOffConfirm name))
      = ClientReaction.weekOffModal ∧
    onErrorDispatch (gateMessage (.duplicateScan name h))
      = ClientReaction.infoToast ∧
    onErrorDispatch (gateMessage .notFound) = ClientReaction.errorToast ∧
    onErrorDispatch (gateMessage .inactive) = ClientReaction.errorToast ∧
    onErrorDispatch (gateMessage .validationError)
      = ClientReaction.errorToast := by
  refine ⟨rfl, rfl, rfl, rfl, rfl, rfl, rfl, rfl, rfl, rfl, rfl,
    ?_, ?_, ?_, ?_, ?_⟩
  · show onErrorDispatch "Employee is on week off. Confirmation required."
      = ClientReaction.weekOffModal
    decide
  · show onErrorDispatch "Card already scanned" = ClientReaction.infoToast
    decide
  · show onErrorDispatch "Employee not found" = ClientReaction.errorToast
    decide
  · show onErrorDispatch "Employee is inactive" = ClientReaction.errorToast
    decide
  · show onErrorDispatch "SLPID is required" = ClientReaction.errorToast
    decide

theorem flatMap_nil_fun (l : List Employee) :
    (l.flatMap (fun _ => ([] : List ReportRow))) = [] := by
  induction l <;> simp_all

theorem reportRowsForEmployee_nil_dates (db : DB) (allAtt : List Attendance)
    (department : Option String) (onlyAbsent : Bool) (emp : Employee) :
    reportRowsForEmployee db allAtt [] department onlyAbsent emp = [] := by
  cases department with
  | none => rfl
  | some dept =>
    by_cases hdep : emp.department ≠ dept
    · simp only [reportRowsForEmployee, if_pos hdep]
    · simp only [reportRowsForEmployee, if_neg hdep]
      rfl

/-- C9 counterexample: an inverted date range passed to the reports
route is not rejected as a validation error; the route reads storage
and answers 200 with an empty row list, while the very same store does
produce a row for a proper range. The inverted range is only blocked
client-side by the handleSearch guard of the reports screen. -/
theorem report_range_validation_counterexample :
    buildReport dbReport (some 1) (some 0) none false
      = ReportResult.ok [] ∧
    ReportResult.ok ([] : List ReportRow) ≠ ReportResult.validationError ∧
    handleSearch 1 0
      = SearchAction.showError "From date cannot be after To date" := by
  refine ⟨by decide, by decide, by decide⟩

/-- C9 amended: a missing badge code and an empty identifier set are
rejected with a validation error leaving the store untouched, as are
missing report dates; but an inverted date range is not rejected by
the reports route, which reads storage and answers success with an
empty row list; the inverted range is only blocked client-side by the
handleSearch guard of the reports screen. -/
theorem input_validation_amended (db : DB) (allow : Bool) (now : ℚ)
    (today fid : Nat) (f t : Nat) (dept : Option String) (oa : Bool)
    (hft : t < f) :
    scanGate db "" allow now today fid = (.validationError, db) ∧
    bulkGateOut db [] now = (.validationError, db) ∧
    buildReport db none (some t) dept oa = .validationError ∧
    buildReport db (some f) none dept oa = .validationError ∧
    buildReport db (some f) (some t) dept oa = .ok [] ∧
    handleSearch f t = .showError "From date cannot be after To date" := by
  refine ⟨by simp [scanGate], rfl, rfl, rfl, ?_, ?_⟩
  · have hd : t + 1 - f = 0 := by omega
    simp only [buildReport, hd, List.range'_zero]
    have h2 : ∀ (l : List Employee) (x : List Attendance),
        l.flatMap (reportRowsForEmployee db x [] dept oa) = [] := by
      intro l x
      apply List.flatMap_eq_nil_iff.mpr
      intro emp _
      exact reportRowsForEmployee_nil_dates db x dept oa emp
    rw [h2]
    rfl
  · simp only [handleSearch, if_pos hft]

/-- Witness for the amended C9 over the report store, with the
inverted range from day 1 to day 0. -/
theorem input_validation_amended_witness :
    scanGate dbReport "" false 0 1 40 = (.validationError, dbReport) ∧
    bulkGateOut dbReport [] 0 = (.validationError, dbReport) ∧
    buildReport dbReport none (some 0) none false = .validationError ∧
    buildReport dbReport (some 1) none none false = .validationError ∧
    buildReport dbReport (some 1) (some 0) none false = .ok [] ∧
    handleSearch 1 0 = .showError "From date cannot be after To date" :=
  input_validation_amended dbReport false 0 1 40 1 0 none false
    (by decide)

theorem insertByDateDesc_perm (r : ReportRow) (l : List ReportRow) :
    (insertByDateDesc r l).Perm (r :: l) := by
  induction l with
  | nil => exact List.Perm.refl _
  | cons x xs ih =>
    unfold insertByDateDesc
    by_cases hc : x.date < r.date
    · rw [if_pos hc]
    · rw [if_neg hc]
      exact (List.Perm.cons x ih).trans (List.Perm.swap r x xs)

theorem sortByDateDesc_perm (l : List ReportRow) :
    (sortByDateDesc l).Perm l := by
  induction l with
  | nil => exact List.Perm.refl _
  | cons x xs ih =>
    unfold sortByDateDesc
    exact (insertByDateDesc_perm x (sortByDateDesc xs)).trans
      (List.Perm.cons x ih)

theorem reportRowsFor_length (emp : Employee) (ros : Option Roster)
    (allAtt : List Attendance) (oa : Bool) (date : Nat) :
    (reportRowsFor emp ros allAtt oa date).length
      = if emitsRow emp ros allAtt oa date then 1 else 0 := by
  unfold reportRowsFor emitsRow
  dsimp only
  rcases hatt : allAtt.find?
      (fun a => a.employeeId == emp.id && a.date == date) with _ | a <;>
    cases oa <;>
    cases hwo : (match ros with
      | some r => jsToLower r.weekOff == jsToLower (weekdayName date)
      | none => false) <;>
    simp [hatt, hwo]

theorem flatMap_reportRowsFor_length (emp : Employee) (ros : Option Roster)
    (allAtt : List Attendance) (oa : Bool) (dates : List Nat) :
    (dates.flatMap (reportRowsFor emp ros allAtt oa)).length
      = dates.countP (emitsRow emp ros allAtt oa) := by
  induction dates with
  | nil => rfl
  | cons d rest ih =>
    rw [List.flatMap_cons, List.length_append, ih, List.countP_cons,
      reportRowsFor_length]
    exact Nat.add_comm _ _

theorem reportRowsForEmployee_length (db : DB) (allAtt : List Attendance)
    (dates : List Nat) (dept : Option String) (oa : Bool)
    (emp : Employee) :
    (reportRowsForEmployee db allAtt dates dept oa emp).length =
      if matchesDept dept emp then
        dates.countP (emitsRow emp
          (db.rosters.find? (fun r => r.employeeId == emp.id)) allAtt oa)
      else 0 := by
  cases dept with
  | none =>
    simp only [reportRowsForEmployee, matchesDept, if_pos]
    exact flatMap_reportRowsFor_length emp _ allAtt oa dates
  | some d =>
    by_cases hd : emp.department ≠ d
    · have hb : (emp.department == d) = false := by
        simpa using hd
      simp only [reportRowsForEmployee, if_pos hd, matchesDept, hb,
        Bool.false_eq_true, if_false, List.length_nil]
    · have heq : emp.department = d := not_not.mp hd
      have hb : (emp.department == d) = true := by
        simpa using heq
      simp only [reportRowsForEmployee, if_neg hd, matchesDept, hb,
        if_true]
      exact flatMap_reportRowsFor_length emp _ allAtt oa dates

theorem mem_reportRowsFor_status {r : ReportRow} {emp : Employee}
    {ros : Option Roster} {allAtt : List Attendance} {oa : Bool}
    {date : Nat} (h : r ∈ reportRowsFor emp ros allAtt oa date) :
    (r.status = "P" ∨ r.status = "A") ∧ (oa = true → r.status = "A") := by
  unfold reportRowsFor at h
  dsimp only at h
  rcases hatt : allAtt.find?
      (fun a => a.employeeId == emp.id && a.date == date) with _ | a <;>
    rw [hatt] at h
  · rcases ros with _ | rosr
    · cases oa <;> simp at h <;> subst h
      · exact ⟨Or.inr rfl, fun h2 => absurd h2 (by decide)⟩
      · exact ⟨Or.inr rfl, fun _ => rfl⟩
    · cases hwo : jsToLower rosr.weekOff == jsToLower (weekdayName date) <;>
        cases oa <;> simp [hwo] at h <;> subst h
      · exact ⟨Or.inr rfl, fun h2 => absurd h2 (by decide)⟩
      · exact ⟨Or.inr rfl, fun _ => rfl⟩
  · cases oa <;> simp at h
    subst h
    exact ⟨Or.inl rfl, fun h2 => absurd h2 (by decide)⟩

theorem mem_reportRowsForEmployee {r : ReportRow} {db : DB}
    {allAtt : List Attendance} {dates : List Nat} {dept : Option String}
    {oa : Bool} {emp : Employee}
    (h : r ∈ reportRowsForEmployee db allAtt dates dept oa emp) :
    ∃ d ∈ dates, r ∈ reportRowsFor emp
      (db.rosters.find? (fun r2 => r2.employeeId == emp.id)) allAtt oa d := by
  cases dept with
  | none =>
    simp only [reportRowsForEmployee] at h
    exact List.mem_flatMap.mp h
  | some dp =>
    by_cases hd : emp.department ≠ dp
    · simp only [reportRowsForEmployee, if_pos hd] at h
      exact absurd h (List.not_mem_nil r)
    · simp only [reportRowsForEmployee, if_neg hd] at h
      exact List.mem_flatMap.mp h

/-- C7 amended: the reports route emits one row per (active, filtered
employee, range date) pair except sessionless rest-day pairs, which
produce no row at all; every emitted status is P (a session matches)
or A (no session and not the rest day) — no WO rows are produced by
this route; with the only-absences flag every emitted row is an A
row. The row count is the sum over admitted employees of the number
of range dates at which a row is emitted. -/
theorem build_report_amended (db : DB) (f t : Nat)
    (dept : Option String) (oa : Bool) :
    ∃ rows, buildReport db (some f) (some t) dept oa = .ok rows ∧
      rows.length = ((db.employees.filter (fun e => e.isActive)).map
        (fun emp =>
          if matchesDept dept emp then
            (List.range' f (t + 1 - f)).countP
              (emitsRow emp
                (db.rosters.find? (fun r2 => r2.employeeId == emp.id))
                (db.attendance.filter
                  (fun a => f ≤ a.date && a.date ≤ t)) oa)
          else 0)).sum ∧
      (∀ r ∈ rows, r.status = "P" ∨ r.status = "A") ∧
      (oa = true → ∀ r ∈ rows, r.status = "A") := by
  refine ⟨_, rfl, ?_, ?_, ?_⟩
  · rw [(sortByDateDesc_perm _).length_eq, List.length_flatMap]
    congr 1
    apply List.map_congr_left
    intro emp _
    simp only [Function.comp_apply]
    exact reportRowsForEmployee_length db _ _ dept oa emp
  · intro r hr
    have hr2 := (sortByDateDesc_perm _).mem_iff.mp hr
    rcases List.mem_flatMap.mp hr2 with ⟨emp, _, hrow⟩
    rcases mem_reportRowsForEmployee hrow with ⟨d, _, hmem⟩
    exact (mem_reportRowsFor_status hmem).1
  · intro hoa r hr
    have hr2 := (sortByDateDesc_perm _).mem_iff.mp hr
    rcases List.mem_flatMap.mp hr2 with ⟨emp, _, hrow⟩
    rcases mem_reportRowsForEmployee hrow with ⟨d, _, hmem⟩
    exact (mem_reportRowsFor_status hmem).2 hoa

/-- Witness for the amended C7: the three-day range from day 0 to
day 2 over the report store. -/
theorem build_report_amended_witness :
    ∃ rows, buildReport dbReport (some 0) (some 2) none false
        = .ok rows ∧
      rows.length = ((dbReport.employees.filter (fun e => e.isActive)).map
        (fun emp =>
          if matchesDept none emp then
            (List.range' 0 (2 + 1 - 0)).countP
              (emitsRow emp
                (dbReport.rosters.find?
                  (fun r2 => r2.employeeId == emp.id))
                (dbReport.attendance.filter
                  (fun a => 0 ≤ a.date && a.date ≤ 2)) false)
          else 0)).sum ∧
      (∀ r ∈ rows, r.status = "P" ∨ r.status = "A") ∧
      (false = true → ∀ r ∈ rows, r.status = "A") :=
  build_report_amended dbReport 0 2 none false

/-- C7 counterexample: a one-day range over one active employee whose
rest day falls on that day yields zero rows from the reports route,
not the one WO row per (employee, date) pair that the claim requires:
the sessionless rest-day pair is silently dropped, so a 1-day range
over 1 employee does not yield 1 x 1 rows, and no WO status ever
appears in this response. -/
theorem report_weekoff_row_counterexample :
    buildReport dbThursday (some 0) (some 0) none false
      = ReportResult.ok [] ∧
    ([] : List ReportRow).length ≠ 1 * 1 := by
  refine ⟨by decide, by decide⟩
